import Mathlib

/-!
# Verification of the event-stream orchestration loop samples

Shallow embedding, in Lean 4, of the client-side control flow of the
repository samples:

* `Workflows/Orchestration/AzureOpenAIResponsesClient/Magentic.HumanPlanUpdate.py`
  (`main`): the while-not-completed streaming loop with human plan review.
* `Workflows/Orchestration/AzureAIAgentClient/Sequential.ExistingAgents.ErrorHandling.py`
  (`run_workflow`): failure-event observation and the catch-all handler.
* `Workflows/Orchestration/AzureAIAgentClient/Sequential.ExistingAgents.WithRequestInfo.py`
  (`run_workflow`): the bounded conversation-context display.
* `Workflows/ConditionalEdges.py`: `is_valid_response` / `is_invalid_response`.
* `AzureAI.Orchestration.GroupChat.py`: `select_next_speaker` and the delta
  rendering loop.

Python strings are modelled as Lean `String`; `None`-able values as `Option`;
the asynchronous event streams as lists of events (one list per stream
segment, in delivery order); console output as an accumulated `String`.
-/

/-! ## String helpers mirroring Python primitives -/

/-- Python `needle in hay` on lists of characters: some prefix position of
`hay` starts with `needle`. -/
def listContainsSub : List Char → List Char → Bool
  | _, [] => true
  | [], _ :: _ => false
  | c :: hay, needle =>
    if (needle.isPrefixOf (c :: hay)) then true else listContainsSub hay needle

/-- Python `needle in hay` for strings (substring containment). -/
def strContains (hay needle : String) : Bool :=
  listContainsSub hay.toList needle.toList

/-- Python `str.lower()` (ASCII case folding, as used by the samples). -/
def strLower (s : String) : String :=
  String.mk (s.toList.map Char.toLower)

/-- Python `str.strip()`: drop leading and trailing whitespace. -/
def strStrip (s : String) : String :=
  String.mk (((s.toList.dropWhile Char.isWhitespace).reverse.dropWhile
    Char.isWhitespace).reverse)

/-! ## ConditionalEdges.py -/

/-- Field `text` of the agent run response (`response.agent_run_response.text`). -/
structure AgentRunResponse where
  text : String
deriving DecidableEq

/-- `AgentExecutorResponse` as used by `is_valid_response`: only the
`agent_run_response` field is consulted, and it may be `None`. -/
structure AgentExecutorResponse where
  agent_run_response : Option AgentRunResponse
deriving DecidableEq

/-- The `error_indicators` list of `is_valid_response`. -/
def error_indicators : List String :=
  ["error", "failed", "cannot", "unable", "sorry"]

/-- `is_valid_response` from `ConditionalEdges.py` (lines 59-75).  The Python
parameter may be `None` (checked by `response is None`), hence `Option`. -/
def is_valid_response (response : Option AgentExecutorResponse) : Bool :=
  match response with
  | none => false
  | some resp =>
    match resp.agent_run_response with
    | none => false
    | some runResp =>
      let text := strLower runResp.text
      if (error_indicators.any fun indicator => strContains text indicator) then
        false
      else if (strStrip runResp.text).length < 10 then
        false
      else
        true

/-- `is_invalid_response` from `ConditionalEdges.py` (lines 78-80). -/
def is_invalid_response (response : Option AgentExecutorResponse) : Bool :=
  !is_valid_response response

/-! ## AzureAI.Orchestration.GroupChat.py : speaker selection -/

/-- One entry of `state["history"]`; only the `speaker` field is consulted. -/
structure HistoryEntry where
  speaker : String
deriving DecidableEq

/-- The parts of `GroupChatStateSnapshot` read by `select_next_speaker`. -/
structure GroupChatStateSnapshot where
  round_index : Nat
  history : List HistoryEntry
deriving DecidableEq

/-- `select_next_speaker` from `AzureAI.Orchestration.GroupChat.py`
(lines 35-55): finish after 4 turns, otherwise alternate away from
`MathAgent` when it spoke last, defaulting to `MathAgent`. -/
def select_next_speaker (state : GroupChatStateSnapshot) : Option String :=
  if state.round_index ≥ 4 then
    none
  else
    let last_speaker := state.history.getLast?.map HistoryEntry.speaker
    if last_speaker = some "MathAgent" then
      some "TemperatureConversionAgent"
    else
      some "MathAgent"

/-! ## Magentic.HumanPlanUpdate.py : the while-not-completed streaming loop -/

/-- The parts of `ChatMessage` read by the loop (`author_name`, `text`). -/
structure ChatMessage where
  author : String
  text : String
deriving DecidableEq

/-- The event variants dispatched by `main` in `Magentic.HumanPlanUpdate.py`
(lines 160-193).  `other` stands for every event the loop ignores
(non-magentic `AgentRunUpdateEvent`s, non-plan-review `RequestInfoEvent`s,
status events, and so on). -/
inductive MagenticEvent where
  | orchestrator (kind : String) (text : String)
  | agentDelta (agentId : String) (text : String)
  | requestInfo (requestId : String) (planText : Option String)
  | output (messages : List ChatMessage)
  | other
deriving DecidableEq

/-- `MagenticHumanInterventionDecision` values used by the sample. -/
inductive MagenticHumanInterventionDecision where
  | approve
  | revise
deriving DecidableEq

/-- `MagenticHumanInterventionReply` as built by the sample (lines 212-240). -/
structure MagenticHumanInterventionReply where
  decision : MagenticHumanInterventionDecision
  comments : Option String := none
  edited_plan_text : Option String := none
deriving DecidableEq

/-- The local variables of `main` that drive the loop (lines 116-117 and
147-150), initialised per loop instance. -/
structure LoopState where
  pendingRequest : Option String
  pendingResponses : Option (String × MagenticHumanInterventionReply)
  completed : Bool
  workflowOutput : Option String
  lastStreamAgentId : Option String
  streamLineOpen : Bool
deriving DecidableEq

/-- Fresh per-instance state: `pending_request = None`,
`pending_responses = None`, `completed = False`, `workflow_output = None`,
`last_stream_agent_id = None`, `stream_line_open = False`. -/
def initState : LoopState :=
  ⟨none, none, false, none, none, false⟩

/-- Python `'-' * 26`. -/
def dashRule : String :=
  String.mk (List.replicate 26 '-')

/-- Python `'=' * 50`. -/
def eqRule : String :=
  String.mk (List.replicate 50 '=')

/-- One step of the event dispatch in the `async for` body
(lines 161-193): returns the updated state and the console text printed
while handling the event. -/
def processEvent (s : LoopState) (e : MagenticEvent) : LoopState × String :=
  match e with
  | .orchestrator kind text =>
      (s, "\n[ORCH:" ++ kind ++ "]\n\n" ++ text ++ "\n" ++ dashRule ++ "\n")
  | .agentDelta agentId text =>
      if s.lastStreamAgentId ≠ some agentId ∨ s.streamLineOpen = false then
        ({ s with lastStreamAgentId := some agentId, streamLineOpen := true },
          (if s.streamLineOpen then "\n" else "")
            ++ "\n[STREAM:" ++ agentId ++ "]: " ++ text)
      else
        (s, text)
  | .requestInfo requestId planText =>
      ({ s with pendingRequest := some requestId },
        match planText with
        | none => ""
        | some p =>
            if p = "" then ""
            else
              "\n" ++ eqRule ++ "\nPLAN REVIEW REQUEST\n" ++ eqRule ++ "\n"
                ++ p ++ "\n" ++ eqRule ++ "\n\n")
  | .output messages =>
      ({ s with
          workflowOutput :=
            match messages.getLast? with
            | some m => some m.text
            | none => s.workflowOutput,
          completed := true }, "")
  | .other => (s, "")

/-- The `async for event in stream` loop over one stream segment, folding
`processEvent` over the events in delivery order and concatenating the
printed text. -/
def processSegment : LoopState → List MagenticEvent → LoopState × String
  | s, [] => (s, "")
  | s, e :: rest =>
      let first := processEvent s e
      let restRes := processSegment first.1 rest
      (restRes.1, first.2 ++ restRes.2)

/-- The plan-review option menu printed before input collection
(lines 202-207). -/
def menuText : String :=
  "\nPlan review options:\n"
    ++ "1. approve - Approve the plan as-is\n"
    ++ "2. approve with comments - Approve with feedback for the manager\n"
    ++ "3. revise - Request revision with your feedback\n"
    ++ "4. edit - Directly edit the plan text\n"
    ++ "5. exit - Exit the workflow\n"

/-- The prompt printed by `input` at the top of the choice loop (line 210). -/
def promptChoice : String := "\nEnter your choice (1-5): "

/-- The re-prompt printed on a malformed choice (line 245). -/
def invalidLine : String := "Invalid choice. Please enter a number 1-5.\n"

/-- The `edit` branch input loop (lines 230-235): consumes lines until an
empty line; `none` when the operator input list runs out first. -/
def readEditLines : List String → Option (List String × List String)
  | [] => none
  | l :: rest =>
      if l = "" then some ([], rest)
      else
        match readEditLines rest with
        | some p => some (l :: p.1, p.2)
        | none => none

/-- The normalised choice strings recognised by the five branches of the
input loop (lines 211-244). -/
def recognisedChoices : List String :=
  ["approve", "1", "approve with comments", "2", "revise", "3",
   "edit", "4", "exit", "5"]

/-- The `while True` input-collection loop (lines 209-245), consuming the
operator input list one `input()` call at a time.  Result `(res, out)`:
`out` is the printed text; `res` is `none` when the operator input list is
exhausted mid-collection (an `input()` call that never returns), otherwise
`some (none, rest)` for the `exit` branch and `some (some reply, rest)` for
a collected reply, with `rest` the unconsumed operator inputs. -/
def collectReply :
    List String → Option (Option MagenticHumanInterventionReply × List String) × String
  | [] => (none, "")
  | c :: rest =>
      let choice := strLower (strStrip c)
      if choice = "approve" ∨ choice = "1" then
        (some (some ⟨.approve, none, none⟩, rest), promptChoice)
      else if choice = "approve with comments" ∨ choice = "2" then
        match rest with
        | [] => (none, promptChoice ++ "Enter your comments for the manager: ")
        | cm :: rest2 =>
            let cms := strStrip cm
            (some (some ⟨.approve, if cms = "" then none else some cms, none⟩, rest2),
              promptChoice ++ "Enter your comments for the manager: ")
      else if choice = "revise" ∨ choice = "3" then
        match rest with
        | [] => (none, promptChoice ++ "Enter feedback for revising the plan: ")
        | cm :: rest2 =>
            let cms := strStrip cm
            (some (some ⟨.revise, if cms = "" then none else some cms, none⟩, rest2),
              promptChoice ++ "Enter feedback for revising the plan: ")
      else if choice = "edit" ∨ choice = "4" then
        match readEditLines rest with
        | none => (none, promptChoice ++ "Enter your edited plan (end with an empty line):\n")
        | some p =>
            let editedPlan := String.intercalate "\n" p.1
            (some (some ⟨.revise, none, if editedPlan = "" then none else some editedPlan⟩, p.2),
              promptChoice ++ "Enter your edited plan (end with an empty line):\n")
      else if choice = "exit" ∨ choice = "5" then
        (some (none, rest), promptChoice ++ "Exiting workflow...\n")
      else
        let recur := collectReply rest
        (recur.1, promptChoice ++ invalidLine ++ recur.2)

/-- The stream calls issued by the loop: `workflow.run_stream(task)` or
`workflow.send_responses_streaming({request_id: reply})` (lines 154-157). -/
inductive StreamCall where
  | start
  | resume (requestId : String) (reply : MagenticHumanInterventionReply)
deriving DecidableEq

/-- How a run of `main` ends: normal loop exit with the captured output
(`finished`), the operator-chosen `exit` return (`exited`), or an `input()` /
stream segment that never arrives (`stuck`). -/
inductive RunOutcome where
  | finished (output : Option String)
  | exited
  | stuck
deriving DecidableEq

/-- The final `if workflow_output:` block (lines 251-255). -/
def finalBlock : Option String → String
  | none => ""
  | some out =>
      if out = "" then ""
      else "\n" ++ eqRule ++ "\nWORKFLOW COMPLETED\n" ++ eqRule ++ "\n" ++ out ++ "\n"

/-- Everything a run of `main` produces that the spec talks about: the
outcome, the ordered trace of stream calls, and the rendered console text. -/
structure RunResult where
  outcome : RunOutcome
  calls : List StreamCall
  rendered : String
deriving DecidableEq

/-- The `while not completed` loop of `main` (lines 152-255).  The external
engine is modelled by `segs`: the list of stream segments, consumed one per
stream call in order; `inputs` is the operator input list consumed by
`input()` calls.  Per iteration: choose `resume`/`start` by
`pending_responses`, fold the segment, close an open stream line, clear
`pending_responses`, then collect the reply when a plan-review request is
pending. -/
def runLoop : LoopState → List (List MagenticEvent) → List String → RunResult
  | s, [], _ =>
      if s.completed then ⟨.finished s.workflowOutput, [], finalBlock s.workflowOutput⟩
      else ⟨.stuck, [], ""⟩
  | s, seg :: rest, inputs =>
      if s.completed then ⟨.finished s.workflowOutput, [], finalBlock s.workflowOutput⟩
      else
        let call : StreamCall :=
          match s.pendingResponses with
          | some pr => .resume pr.1 pr.2
          | none => .start
        let afterSeg := processSegment s seg
        let closeOut : String := if afterSeg.1.streamLineOpen then "\n" else ""
        let s2 := { afterSeg.1 with streamLineOpen := false, pendingResponses := none }
        match s2.pendingRequest with
        | none =>
            let restRes := runLoop s2 rest inputs
            ⟨restRes.outcome, call :: restRes.calls,
              afterSeg.2 ++ closeOut ++ restRes.rendered⟩
        | some requestId =>
            let coll := collectReply inputs
            match coll.1 with
            | none =>
                ⟨.stuck, [call], afterSeg.2 ++ closeOut ++ menuText ++ coll.2⟩
            | some (none, _) =>
                ⟨.exited, [call], afterSeg.2 ++ closeOut ++ menuText ++ coll.2⟩
            | some (some reply, inputs2) =>
                let s3 := { s2 with
                  pendingResponses := some (requestId, reply), pendingRequest := none }
                let restRes := runLoop s3 rest inputs2
                ⟨restRes.outcome, call :: restRes.calls,
                  afterSeg.2 ++ closeOut ++ menuText ++ coll.2 ++ restRes.rendered⟩

/-! ## Sequential.ExistingAgents.ErrorHandling.py : failure observation -/

/-- The `WorkflowRunState` values dispatched on by `run_workflow`. -/
inductive SeqRunState where
  | inProgress
  | idle
  | failed
deriving DecidableEq

/-- The event variants dispatched by `run_workflow` in
`Sequential.ExistingAgents.ErrorHandling.py` (lines 103-120); `other` covers
every ignored event. -/
inductive SequentialEvent where
  | executorFailed (executorId : String) (exnRepr : String)
  | workflowFailed (errorType : String) (message : String) (executorId : Option String)
  | statusChange (state : SeqRunState)
  | other
deriving DecidableEq

/-- The exception the engine re-raises after yielding the failure events:
`type(e).__name__` and `str(e)`. -/
structure CaughtError where
  errType : String
  message : String
deriving DecidableEq

/-- Console text for one event in the `async for` body of `run_workflow`
(lines 105-120). -/
def renderSeqEvent : SequentialEvent → String
  | .executorFailed executorId exnRepr =>
      "\n[ExecutorFailedEvent] Executor \x27" ++ executorId ++ "\x27 failed!\n"
        ++ "  Exception: " ++ exnRepr ++ "\n"
  | .workflowFailed errorType message executorId =>
      "\n[WorkflowFailedEvent] Workflow failed!\n"
        ++ "  Error Type: " ++ errorType ++ "\n"
        ++ "  Message: " ++ message ++ "\n"
        ++ (match executorId with
            | some i => if i = "" then "" else "  Failed Executor: " ++ i ++ "\n"
            | none => "")
  | .statusChange .failed => "\n[WorkflowStatusEvent] State: FAILED - Workflow stopped\n"
  | .statusChange .idle =>
      "\n[WorkflowStatusEvent] State: IDLE - Workflow completed successfully\n"
  | .statusChange .inProgress => ""
  | .other => ""

/-- Console text of the `except Exception` handler (lines 122-127). -/
def caughtBlock (e : CaughtError) : String :=
  "\n=== Caught Exception ===\n"
    ++ "Type: " ++ e.errType ++ "\n"
    ++ "Message: " ++ e.message ++ "\n"
    ++ "\nWorkflow stopped - subsequent agents did NOT execute.\n"

/-- What a call of `run_workflow` observably does: the structured failure
details it prints per `WorkflowFailedEvent` / `ExecutorFailedEvent`, whether
a FAILED status was seen, the exception its `except` clause caught, the
exception it lets escape to its own caller, and the console text. -/
structure SequentialRunObs where
  workflowFailures : List (String × String × Option String)
  executorFailures : List (String × String)
  sawFailedStatus : Bool
  caught : Option CaughtError
  raisedToCaller : Option CaughtError
  rendered : String
deriving DecidableEq

/-- The per-event observation fold of `run_workflow`. -/
def observeSeqEvent (obs : SequentialRunObs) (e : SequentialEvent) : SequentialRunObs :=
  let obs1 := { obs with rendered := obs.rendered ++ renderSeqEvent e }
  match e with
  | .executorFailed executorId exnRepr =>
      { obs1 with executorFailures := obs1.executorFailures ++ [(executorId, exnRepr)] }
  | .workflowFailed errorType message executorId =>
      { obs1 with
          workflowFailures := obs1.workflowFailures ++ [(errorType, message, executorId)] }
  | .statusChange .failed => { obs1 with sawFailedStatus := true }
  | _ => obs1

/-- `run_workflow` from `Sequential.ExistingAgents.ErrorHandling.py`
(lines 93-127).  The engine stream is modelled as the yielded event list
plus the exception (if any) it re-raises after the last event.  The whole
loop sits in `try ... except Exception as e`, so a raised exception is
caught, printed, and swallowed: the function always returns normally
(`raisedToCaller = none`) and returns no output value. -/
def run_workflow (events : List SequentialEvent) (raised : Option CaughtError) :
    SequentialRunObs :=
  let base := events.foldl observeSeqEvent ⟨[], [], false, none, none, ""⟩
  match raised with
  | none => base
  | some e =>
      { base with
          caught := some e
          rendered := base.rendered ++ caughtBlock e
          raisedToCaller := none }

/-! ## Sequential.ExistingAgents.WithRequestInfo.py : bounded context display -/

/-- The parts of a conversation message read by the request-info display:
`role` (enum value, may be `None`) and `text` (may be `None`). -/
structure ConvMessage where
  role : Option String
  text : Option String
deriving DecidableEq

/-- Line 111-113 of `Sequential.ExistingAgents.WithRequestInfo.py`:
`conversation[-2:] if len(conversation) > 2 else conversation`. -/
def recentContext (conversation : List ConvMessage) : List ConvMessage :=
  if conversation.length > 2 then
    conversation.drop (conversation.length - 2)
  else
    conversation

/-- Lines 114-117: one printed context line per recent message, with the
role defaulted to `unknown` and the text truncated to 200 characters. -/
def contextLines (conversation : List ConvMessage) : List String :=
  (recentContext conversation).map fun msg =>
    "  [" ++ (match msg.role with | some r => r | none => "unknown") ++ "]: "
      ++ ((msg.text.getD "").take 200) ++ "...\n"

/-- Discriminator: is the event a plan-review `RequestInfoEvent`? -/
def isRequestEvent : MagenticEvent → Bool
  | .requestInfo _ _ => true
  | _ => false

/-- Discriminator: is the event a `WorkflowOutputEvent`? -/
def isOutputEvent : MagenticEvent → Bool
  | .output _ => true
  | _ => false

/-- The console text of `n` successive malformed-choice iterations of the
input loop: the `input()` prompt followed by the re-prompt line, `n` times. -/
def repromptText : Nat → String
  | 0 => ""
  | n + 1 => promptChoice ++ invalidLine ++ repromptText n

/-- The rendered console text of one fresh loop instance consuming one
stream segment, as in `AzureAI.Orchestration.GroupChat.py` lines 85-104 and
`Magentic.HumanPlanUpdate.py` lines 116-117: the accumulation buffers are
initialised anew for each instance. -/
def renderOnce (es : List MagenticEvent) (inputs : List String) : String :=
  (runLoop initState [es] inputs).rendered

/-- The failure scenario of `Sequential.ExistingAgents.ErrorHandling.py`
(sample output, lines 164-183): executor failure, workflow failure with
structured details, FAILED status. -/
def failingEvents : List SequentialEvent :=
  [.executorFailed "CatalogAgent" "RuntimeError: Product not found in catalog",
   .workflowFailed "RuntimeError" "Product not found in catalog" (some "CatalogAgent"),
   .statusChange .failed]

/-- The exception the engine re-raises in that scenario. -/
def failingExn : CaughtError :=
  ⟨"RuntimeError", "Product not found in catalog"⟩

/-- The state at the bottom of one loop iteration, after the segment fold,
the close of an open stream line (lines 195-197) and the clearing of
`pending_responses` (line 198). -/
def afterSegmentState (s : LoopState) (seg : List MagenticEvent) : LoopState :=
  { (processSegment s seg).1 with streamLineOpen := false, pendingResponses := none }

/-- The state entering the next iteration after a pending plan-review
request was answered (lines 247-248): `pending_responses` holds the
singleton mapping, `pending_request` is cleared. -/
def resumeState (s : LoopState) (seg : List MagenticEvent) (rid : String)
    (reply : MagenticHumanInterventionReply) : LoopState :=
  { afterSegmentState s seg with
      pendingResponses := some (rid, reply)
      pendingRequest := none }

/-- The stream call an iteration issues, chosen from `pending_responses`
(lines 153-157). -/
def callOf (s : LoopState) : StreamCall :=
  match s.pendingResponses with
  | some pr => StreamCall.resume pr.1 pr.2
  | none => StreamCall.start

/-! ## Claim theorems -/

/-- C10: `select_next_speaker` returns `none` whenever `round_index ≥ 4`;
below that bound it returns `TemperatureConversionAgent` exactly when the
last history entry was spoken by `MathAgent`, and `MathAgent` in every other
case, including an empty history. -/
theorem select_next_speaker_spec (st : GroupChatStateSnapshot) :
    (st.round_index ≥ 4 → select_next_speaker st = none)
    ∧ (st.round_index < 4 →
        ((st.history.getLast?.map HistoryEntry.speaker = some "MathAgent" →
            select_next_speaker st = some "TemperatureConversionAgent")
          ∧ (st.history.getLast?.map HistoryEntry.speaker ≠ some "MathAgent" →
              select_next_speaker st = some "MathAgent")
          ∧ (st.history = [] → select_next_speaker st = some "MathAgent"))) := by
  unfold select_next_speaker
  constructor
  · intro h
    simp [h]
  · intro h
    have h4 : ¬ st.round_index ≥ 4 := by omega
    refine ⟨fun hl => ?_, fun hl => ?_, fun hl => ?_⟩
    · simp [h4, hl]
    · simp [h4, hl]
    · simp [h4, hl]

/-- Witness for C10 at concrete snapshots. -/
theorem select_next_speaker_spec_witness :
    select_next_speaker ⟨5, []⟩ = none
      ∧ select_next_speaker ⟨2, [⟨"MathAgent"⟩]⟩ = some "TemperatureConversionAgent"
      ∧ select_next_speaker ⟨1, []⟩ = some "MathAgent" :=
  ⟨(select_next_speaker_spec ⟨5, []⟩).1 (by decide),
    ((select_next_speaker_spec ⟨2, [⟨"MathAgent"⟩]⟩).2 (by decide)).1 (by decide),
    ((select_next_speaker_spec ⟨1, []⟩).2 (by decide)).2.2 rfl⟩

/-- C9: `is_invalid_response` is the pointwise negation of
`is_valid_response`, so exactly one of the two outgoing edge conditions
holds for every response; and `is_valid_response` is `false` precisely on a
missing response, a missing `agent_run_response`, a lower-cased text
containing one of the error indicators, or a stripped text shorter than 10
characters. -/
theorem conditional_edge_spec (r : Option AgentExecutorResponse) :
    is_invalid_response r = !is_valid_response r
    ∧ (is_valid_response r = true ∨ is_invalid_response r = true)
    ∧ ¬(is_valid_response r = true ∧ is_invalid_response r = true)
    ∧ (r = none → is_valid_response r = false)
    ∧ (∀ resp, r = some resp → resp.agent_run_response = none →
        is_valid_response r = false)
    ∧ (∀ resp runResp, r = some resp → resp.agent_run_response = some runResp →
        (is_valid_response r = true ↔
          ((∀ ind ∈ error_indicators,
              strContains (strLower runResp.text) ind = false)
            ∧ 10 ≤ (strStrip runResp.text).length))) := by
  refine ⟨rfl, ?_, ?_, ?_, ?_, ?_⟩
  · unfold is_invalid_response
    cases is_valid_response r <;> simp
  · unfold is_invalid_response
    cases is_valid_response r <;> simp
  · intro h
    simp [h, is_valid_response]
  · intro resp hr hrun
    subst hr
    simp [is_valid_response, hrun]
  · intro resp runResp hr hrun
    subst hr
    simp only [is_valid_response, hrun]
    by_cases hA :
        (error_indicators.any fun indicator =>
          strContains (strLower runResp.text) indicator) = true
    · rw [if_pos hA]
      refine iff_of_false (by simp) ?_
      rintro ⟨hall, -⟩
      rcases List.any_eq_true.mp hA with ⟨i, hi, hc⟩
      rw [hall i hi] at hc
      simp at hc
    · rw [if_neg hA]
      by_cases hlen : (strStrip runResp.text).length < 10
      · rw [if_pos hlen]
        refine iff_of_false (by simp) ?_
        rintro ⟨-, hge⟩
        omega
      · rw [if_neg hlen]
        refine iff_of_true rfl ⟨fun i hi => ?_, by omega⟩
        cases hb : strContains (strLower runResp.text) i with
        | false => rfl
        | true => exact absurd (List.any_eq_true.mpr ⟨i, hi, hb⟩) hA

/-- Witness for C9 at concrete responses: a healthy catalog answer is
valid (and not routed to the error handler), an apology is invalid. -/
theorem conditional_edge_spec_witness :
    is_valid_response (some ⟨some ⟨"PRODUCT: Apple, CODE: 93, PRICE: 1.50"⟩⟩) = true
      ∧ is_valid_response none = false
      ∧ is_invalid_response (some ⟨some ⟨"Sorry, I cannot find that."⟩⟩)
          = !is_valid_response (some ⟨some ⟨"Sorry, I cannot find that."⟩⟩) :=
  ⟨((conditional_edge_spec (some ⟨some ⟨"PRODUCT: Apple, CODE: 93, PRICE: 1.50"⟩⟩)).2.2.2.2.2
      ⟨some ⟨"PRODUCT: Apple, CODE: 93, PRICE: 1.50"⟩⟩
      ⟨"PRODUCT: Apple, CODE: 93, PRICE: 1.50"⟩ rfl rfl).mpr
    ⟨by decide, by decide⟩,
    (conditional_edge_spec none).2.2.2.1 rfl,
    (conditional_edge_spec (some ⟨some ⟨"Sorry, I cannot find that."⟩⟩)).1⟩

/-- C7: the conversation context shown at a request-info pause is bounded:
for conversations longer than 2 messages exactly the final 2 are displayed
(one printed line per displayed message, text truncated via `contextLines`),
for conversations of length at most 2 the whole conversation is displayed,
and the full conversation is never displayed once it exceeds the bound. -/
theorem recent_context_spec (conv : List ConvMessage) :
    (conv.length ≤ 2 → recentContext conv = conv)
    ∧ (∀ xs ys, conv = xs ++ ys → ys.length = 2 → 2 < conv.length →
        recentContext conv = ys)
    ∧ (2 < conv.length → (recentContext conv).length = 2)
    ∧ (2 < conv.length → recentContext conv ≠ conv)
    ∧ (contextLines conv).length = (recentContext conv).length := by
  refine ⟨?_, ?_, ?_, ?_, ?_⟩
  · intro h
    rw [recentContext, if_neg (by omega)]
  · intro xs ys hconv hys hgt
    subst hconv
    rw [recentContext, if_pos (by omega)]
    rw [List.length_append, hys]
    have hxs : xs.length + 2 - 2 = xs.length := by omega
    rw [hxs, List.drop_left]
  · intro hgt
    rw [recentContext, if_pos hgt, List.length_drop]
    omega
  · intro hgt
    have h2 : (recentContext conv).length = 2 := by
      rw [recentContext, if_pos hgt, List.length_drop]
      omega
    intro heq
    rw [heq] at h2
    omega
  · exact List.length_map _ _

/-- Witness for C7 at a concrete three-message conversation. -/
theorem recent_context_spec_witness :
    recentContext
        [⟨some "user", some "m1"⟩, ⟨some "assistant", some "m2"⟩,
          ⟨some "assistant", some "m3"⟩]
      = [⟨some "assistant", some "m2"⟩, ⟨some "assistant", some "m3"⟩]
      ∧ recentContext [⟨some "user", some "m1"⟩] = [⟨some "user", some "m1"⟩] :=
  ⟨(recent_context_spec _).2.1 [⟨some "user", some "m1"⟩]
      [⟨some "assistant", some "m2"⟩, ⟨some "assistant", some "m3"⟩]
      rfl rfl (by decide),
    (recent_context_spec [⟨some "user", some "m1"⟩]).1 (by decide)⟩

/-! ### Structural lemmas about the Magentic loop -/

/-- Event handling never writes `pending_responses`; only the
between-segment code (lines 198 and 247) does. -/
theorem processEvent_pendingResponses (s : LoopState) (e : MagenticEvent) :
    (processEvent s e).1.pendingResponses = s.pendingResponses := by
  cases e with
  | orchestrator kind text => rfl
  | agentDelta a t =>
      by_cases hc : s.lastStreamAgentId ≠ some a ∨ s.streamLineOpen = false
      · simp [processEvent, hc]
      · simp [processEvent, hc]
  | requestInfo rid plan => rfl
  | output msgs => rfl
  | other => rfl

/-- Only a plan-review `RequestInfoEvent` writes `pending_request`. -/
theorem processEvent_pendingRequest (s : LoopState) (e : MagenticEvent)
    (h : isRequestEvent e = false) :
    (processEvent s e).1.pendingRequest = s.pendingRequest := by
  cases e with
  | orchestrator kind text => rfl
  | agentDelta a t =>
      by_cases hc : s.lastStreamAgentId ≠ some a ∨ s.streamLineOpen = false
      · simp [processEvent, hc]
      · simp [processEvent, hc]
  | requestInfo rid plan => simp [isRequestEvent] at h
  | output msgs => rfl
  | other => rfl

/-- Only a `WorkflowOutputEvent` writes `completed`. -/
theorem processEvent_completed (s : LoopState) (e : MagenticEvent)
    (h : isOutputEvent e = false) :
    (processEvent s e).1.completed = s.completed := by
  cases e with
  | orchestrator kind text => rfl
  | agentDelta a t =>
      by_cases hc : s.lastStreamAgentId ≠ some a ∨ s.streamLineOpen = false
      · simp [processEvent, hc]
      · simp [processEvent, hc]
  | requestInfo rid plan => rfl
  | output msgs => simp [isOutputEvent] at h
  | other => rfl

/-- Folding a whole segment never writes `pending_responses`. -/
theorem processSegment_pendingResponses :
    ∀ (es : List MagenticEvent) (s : LoopState),
    (processSegment s es).1.pendingResponses = s.pendingResponses
  | [], _ => rfl
  | e :: rest, s => by
      simp only [processSegment]
      rw [processSegment_pendingResponses rest (processEvent s e).1,
        processEvent_pendingResponses]

/-- A segment with no plan-review request leaves `pending_request` as it
found it. -/
theorem processSegment_pendingRequest :
    ∀ (es : List MagenticEvent) (s : LoopState),
    (∀ e ∈ es, isRequestEvent e = false) →
    (processSegment s es).1.pendingRequest = s.pendingRequest
  | [], _, _ => rfl
  | e :: rest, s, h => by
      simp only [processSegment]
      rw [processSegment_pendingRequest rest (processEvent s e).1
          (fun x hx => h x (List.mem_cons_of_mem _ hx)),
        processEvent_pendingRequest s e (h e (List.mem_cons_self _ _))]

/-- A segment with no output event leaves `completed` as it found it. -/
theorem processSegment_completed :
    ∀ (es : List MagenticEvent) (s : LoopState),
    (∀ e ∈ es, isOutputEvent e = false) →
    (processSegment s es).1.completed = s.completed
  | [], _, _ => rfl
  | e :: rest, s, h => by
      simp only [processSegment]
      rw [processSegment_completed rest (processEvent s e).1
          (fun x hx => h x (List.mem_cons_of_mem _ hx)),
        processEvent_completed s e (h e (List.mem_cons_self _ _))]

/-- Segment processing splits along `++`: state threads through, rendered
text concatenates. -/
theorem processSegment_append :
    ∀ (es1 es2 : List MagenticEvent) (s : LoopState),
    processSegment s (es1 ++ es2)
      = ((processSegment (processSegment s es1).1 es2).1,
          (processSegment s es1).2 ++ (processSegment (processSegment s es1).1 es2).2)
  | [], es2, s => by
      simp [processSegment, String.empty_append]
  | e :: rest, es2, s => by
      simp only [List.cons_append, processSegment, List.append_eq]
      rw [processSegment_append rest es2 (processEvent s e).1]
      simp [String.append_assoc]

/-- Once `completed` holds, the loop exits at the `while` test without
issuing another stream call. -/
theorem runLoop_of_completed (s : LoopState) (segs : List (List MagenticEvent))
    (inputs : List String) (h : s.completed = true) :
    runLoop s segs inputs
      = ⟨RunOutcome.finished s.workflowOutput, [], finalBlock s.workflowOutput⟩ := by
  cases segs <;> simp [runLoop, h]


/-- One loop iteration in which the segment ends with no pending plan-review
request: the next recursion starts from `afterSegmentState` and no operator
input is consumed. -/
theorem runLoop_cons_noRequest (s : LoopState) (seg : List MagenticEvent)
    (rest : List (List MagenticEvent)) (inputs : List String)
    (hc : s.completed = false)
    (hpr : (processSegment s seg).1.pendingRequest = none) :
    runLoop s (seg :: rest) inputs
      = ⟨(runLoop (afterSegmentState s seg) rest inputs).outcome,
          callOf s :: (runLoop (afterSegmentState s seg) rest inputs).calls,
          (processSegment s seg).2
            ++ (if (processSegment s seg).1.streamLineOpen then "\n" else "")
            ++ (runLoop (afterSegmentState s seg) rest inputs).rendered⟩ := by
  simp only [runLoop, afterSegmentState, callOf]
  rw [if_neg (by simp [hc]), hpr]

/-- One loop iteration in which the segment ends with a pending plan-review
request and the operator supplies a reply: the next recursion resumes from
`resumeState` carrying `{requestId: reply}` and the leftover operator
inputs. -/
theorem runLoop_cons_request (s : LoopState) (seg : List MagenticEvent)
    (rest : List (List MagenticEvent)) (inputs inputs2 : List String)
    (rid : String) (reply : MagenticHumanInterventionReply)
    (hc : s.completed = false)
    (hpr : (processSegment s seg).1.pendingRequest = some rid)
    (hcoll : (collectReply inputs).1 = some (some reply, inputs2)) :
    runLoop s (seg :: rest) inputs
      = ⟨(runLoop (resumeState s seg rid reply) rest inputs2).outcome,
          callOf s :: (runLoop (resumeState s seg rid reply) rest inputs2).calls,
          (processSegment s seg).2
            ++ (if (processSegment s seg).1.streamLineOpen then "\n" else "")
            ++ menuText ++ (collectReply inputs).2
            ++ (runLoop (resumeState s seg rid reply) rest inputs2).rendered⟩ := by
  simp only [runLoop, resumeState, afterSegmentState, callOf]
  rw [if_neg (by simp [hc]), hpr, hcoll]

/-- The first stream call of any not-yet-completed iteration is determined
by `pending_responses`: `resume` with the collected reply when one is
pending, `start` otherwise. -/
theorem runLoop_head_call (s : LoopState) (seg : List MagenticEvent)
    (rest : List (List MagenticEvent)) (inputs : List String)
    (hc : s.completed = false) :
    (runLoop s (seg :: rest) inputs).calls.head? = some (callOf s) := by
  simp only [runLoop]
  rw [if_neg (by simp [hc])]
  split
  · rfl
  · split
    · rfl
    · rfl
    · rfl

/-- C1: for every finite event sequence ending in a `WorkflowOutputEvent`
(and containing no plan-review pause), the loop terminates with outcome
`finished` carrying exactly the payload captured from that output event —
the text of its last message — unmodified between capture and return. -/
theorem run_returns_output_payload (es : List MagenticEvent)
    (msgs : List ChatMessage) (inputs : List String)
    (hnr : ∀ e ∈ es, isRequestEvent e = false) (hne : msgs ≠ []) :
    (runLoop initState [es ++ [MagenticEvent.output msgs]] inputs).outcome
      = RunOutcome.finished (msgs.getLast?.map ChatMessage.text) := by
  obtain ⟨m, hm⟩ := Option.isSome_iff_exists.mp (List.getLast?_isSome.mpr hne)
  have h1 : (processSegment initState (es ++ [MagenticEvent.output msgs])).1
      = (processEvent (processSegment initState es).1 (MagenticEvent.output msgs)).1 := by
    rw [processSegment_append]
    rfl
  have hfields :
      (processEvent (processSegment initState es).1 (MagenticEvent.output msgs)).1
        = { (processSegment initState es).1 with
            workflowOutput := some m.text
            completed := true } := by
    simp [processEvent, hm]
  have hpr : (processSegment initState (es ++ [MagenticEvent.output msgs])).1.pendingRequest
      = none := by
    rw [h1, hfields]
    show (processSegment initState es).1.pendingRequest = none
    rw [processSegment_pendingRequest es initState hnr]
    rfl
  have hcA : (afterSegmentState initState (es ++ [MagenticEvent.output msgs])).completed
      = true := by
    show (processSegment initState (es ++ [MagenticEvent.output msgs])).1.completed = true
    rw [h1, hfields]
  have houtA :
      (afterSegmentState initState (es ++ [MagenticEvent.output msgs])).workflowOutput
        = some m.text := by
    show (processSegment initState (es ++ [MagenticEvent.output msgs])).1.workflowOutput
        = some m.text
    rw [h1, hfields]
  rw [runLoop_cons_noRequest initState (es ++ [MagenticEvent.output msgs]) [] inputs
    rfl hpr]
  show (runLoop (afterSegmentState initState (es ++ [MagenticEvent.output msgs]))
      [] inputs).outcome = _
  rw [runLoop_of_completed _ [] inputs hcA]
  show RunOutcome.finished
      (afterSegmentState initState (es ++ [MagenticEvent.output msgs])).workflowOutput = _
  rw [houtA, hm]
  rfl

/-- Witness for C1 at a concrete delta-then-output sequence. -/
theorem run_returns_output_payload_witness :
    (runLoop initState
        [[MagenticEvent.agentDelta "A" "hi", MagenticEvent.output [⟨"A", "result"⟩]]]
        []).outcome = RunOutcome.finished (some "result") := by
  have h := run_returns_output_payload [MagenticEvent.agentDelta "A" "hi"]
    [⟨"A", "result"⟩] [] (by decide) (by decide)
  simpa using h

/-- C3: pending requests live in a single optional variable, so at every
point exactly one of {no pending request, one pending request} holds; while
a collected reply is pending the iteration never issues a fresh
`run_stream` call but resumes carrying exactly that reply, and a fresh
start is issued only when no reply is pending. -/
theorem pending_request_invariant (s : LoopState) (seg : List MagenticEvent)
    (rest : List (List MagenticEvent)) (inputs : List String)
    (hc : s.completed = false) :
    (s.pendingRequest = none ∨ ∃ r, s.pendingRequest = some r)
    ∧ (∀ rid reply, s.pendingResponses = some (rid, reply) →
        (runLoop s (seg :: rest) inputs).calls.head?
            = some (StreamCall.resume rid reply)
          ∧ (runLoop s (seg :: rest) inputs).calls.head? ≠ some StreamCall.start)
    ∧ (s.pendingResponses = none →
        (runLoop s (seg :: rest) inputs).calls.head? = some StreamCall.start) := by
  refine ⟨?_, ?_, ?_⟩
  · cases h : s.pendingRequest with
    | none => exact Or.inl rfl
    | some r => exact Or.inr ⟨r, rfl⟩
  · intro rid reply h
    have hh := runLoop_head_call s seg rest inputs hc
    simp only [callOf, h] at hh
    exact ⟨hh, by simp [hh]⟩
  · intro h
    have hh := runLoop_head_call s seg rest inputs hc
    simp only [callOf, h] at hh
    exact hh

/-- Witness for C3: a pending reply forces `resume` with that reply; a
fresh state forces `start`. -/
theorem pending_request_invariant_witness :
    (runLoop ⟨none, some ("r1", ⟨.approve, none, none⟩), false, none, none, false⟩
        [[]] []).calls.head?
      = some (StreamCall.resume "r1" ⟨.approve, none, none⟩)
    ∧ (runLoop initState [[]] []).calls.head? = some StreamCall.start :=
  ⟨((pending_request_invariant
      ⟨none, some ("r1", ⟨.approve, none, none⟩), false, none, none, false⟩
      [] [] [] rfl).2.1 "r1" ⟨.approve, none, none⟩ rfl).1,
    (pending_request_invariant initState [] [] [] rfl).2.2 rfl⟩

/-- C4: when a plan-review request with id `rid` is answered, the very next
stream call is one `send_responses_streaming` carrying exactly the singleton
mapping from `rid` to the collected reply, before anything else happens on
the stream. -/
theorem resume_carries_exactly_reply (es1 es2 : List MagenticEvent)
    (plan : Option String) (rid : String)
    (seg2 : List MagenticEvent) (rest : List (List MagenticEvent))
    (inputs inputs2 : List String) (reply : MagenticHumanInterventionReply)
    (hnr2 : ∀ e ∈ es2, isRequestEvent e = false)
    (hno1 : ∀ e ∈ es1, isOutputEvent e = false)
    (hno2 : ∀ e ∈ es2, isOutputEvent e = false)
    (hcoll : (collectReply inputs).1 = some (some reply, inputs2)) :
    ∃ tail, (runLoop initState
        ((es1 ++ MagenticEvent.requestInfo rid plan :: es2) :: seg2 :: rest)
        inputs).calls
      = StreamCall.start :: StreamCall.resume rid reply :: tail := by
  have hpr : (processSegment initState
      (es1 ++ MagenticEvent.requestInfo rid plan :: es2)).1.pendingRequest
        = some rid := by
    rw [processSegment_append]
    show (processSegment (processSegment initState es1).1
        (MagenticEvent.requestInfo rid plan :: es2)).1.pendingRequest = some rid
    simp only [processSegment]
    rw [processSegment_pendingRequest es2 _ hnr2]
    rfl
  have hnoAll : ∀ e ∈ es1 ++ MagenticEvent.requestInfo rid plan :: es2,
      isOutputEvent e = false := by
    intro e he
    rcases List.mem_append.mp he with h1 | h2
    · exact hno1 e h1
    · rcases List.mem_cons.mp h2 with h3 | h4
      · rw [h3]; rfl
      · exact hno2 e h4
  have hcres : (resumeState initState
      (es1 ++ MagenticEvent.requestInfo rid plan :: es2) rid reply).completed
        = false := by
    show (processSegment initState
        (es1 ++ MagenticEvent.requestInfo rid plan :: es2)).1.completed = false
    rw [processSegment_completed _ _ hnoAll]
    rfl
  obtain ⟨tail, htail⟩ : ∃ t,
      (runLoop (resumeState initState
          (es1 ++ MagenticEvent.requestInfo rid plan :: es2) rid reply)
        (seg2 :: rest) inputs2).calls
      = StreamCall.resume rid reply :: t := by
    have hh := runLoop_head_call (resumeState initState
        (es1 ++ MagenticEvent.requestInfo rid plan :: es2) rid reply)
      seg2 rest inputs2 hcres
    have hcall : callOf (resumeState initState
        (es1 ++ MagenticEvent.requestInfo rid plan :: es2) rid reply)
      = StreamCall.resume rid reply := rfl
    rw [hcall] at hh
    cases hl : (runLoop (resumeState initState
        (es1 ++ MagenticEvent.requestInfo rid plan :: es2) rid reply)
      (seg2 :: rest) inputs2).calls with
    | nil => rw [hl] at hh; cases hh
    | cons a t =>
        rw [hl] at hh
        simp only [List.head?_cons, Option.some.injEq] at hh
        exact ⟨t, by rw [hh]⟩
  rw [runLoop_cons_request initState
    (es1 ++ MagenticEvent.requestInfo rid plan :: es2) (seg2 :: rest)
    inputs inputs2 rid reply rfl hpr hcoll]
  exact ⟨tail, by rw [show callOf initState = StreamCall.start from rfl, htail]⟩

/-- Witness for C4: the spec scenario — a plan-review request `r1`, the
operator approves, the resumed stream outputs `done`: exactly one resume
call carrying `{r1: approve}`, and the loop returns `done`. -/
theorem resume_carries_exactly_reply_witness :
    (∃ tail, (runLoop initState
        [[MagenticEvent.requestInfo "r1" none],
          [MagenticEvent.output [⟨"X", "done"⟩]]] ["approve"]).calls
      = StreamCall.start :: StreamCall.resume "r1" ⟨.approve, none, none⟩ :: tail)
    ∧ (runLoop initState
        [[MagenticEvent.requestInfo "r1" none],
          [MagenticEvent.output [⟨"X", "done"⟩]]] ["approve"]).outcome
        = RunOutcome.finished (some "done")
    ∧ (runLoop initState
        [[MagenticEvent.requestInfo "r1" none],
          [MagenticEvent.output [⟨"X", "done"⟩]]] ["approve"]).calls
        = [StreamCall.start, StreamCall.resume "r1" ⟨.approve, none, none⟩] :=
  ⟨resume_carries_exactly_reply [] [] none "r1"
      [MagenticEvent.output [⟨"X", "done"⟩]] [] ["approve"] []
      ⟨.approve, none, none⟩ (by simp) (by simp) (by simp) rfl,
    by decide, by decide⟩

/-- C5: an `AgentDelta` whose participant matches the open stream line is
appended verbatim to that line (no newline, no state change); a newline
flush plus header is emitted exactly when the participant differs from the
previous one or no line is open; and on the spec scenario
`[AgentDelta(A,Hello ), AgentDelta(A,world), Output(Hello world)]` the
final result text equals `Hello world`. -/
theorem agent_delta_rendering (s : LoopState) (a t : String) :
    (s.lastStreamAgentId = some a → s.streamLineOpen = true →
      processEvent s (MagenticEvent.agentDelta a t) = (s, t))
    ∧ ((s.lastStreamAgentId ≠ some a ∨ s.streamLineOpen = false) →
        processEvent s (MagenticEvent.agentDelta a t)
          = ({ s with lastStreamAgentId := some a, streamLineOpen := true },
              (if s.streamLineOpen then "\n" else "")
                ++ "\n[STREAM:" ++ a ++ "]: " ++ t))
    ∧ (runLoop initState
          [[MagenticEvent.agentDelta "A" "Hello ",
            MagenticEvent.agentDelta "A" "world",
            MagenticEvent.output [⟨"A", "Hello world"⟩]]] []).outcome
        = RunOutcome.finished (some "Hello world")
    ∧ (runLoop initState
          [[MagenticEvent.agentDelta "A" "Hello ",
            MagenticEvent.agentDelta "A" "world",
            MagenticEvent.output [⟨"A", "Hello world"⟩]]] []).rendered
        = "\n[STREAM:A]: Hello world\n" ++ finalBlock (some "Hello world") := by
  refine ⟨?_, ?_, by decide, by decide⟩
  · intro h1 h2
    simp only [processEvent]
    rw [if_neg (by simp [h1, h2])]
  · intro h
    simp only [processEvent]
    rw [if_pos h]

/-- Witness for C5: appending to an open line of the same participant, and
opening a fresh line from the initial state. -/
theorem agent_delta_rendering_witness :
    processEvent ⟨none, none, false, none, some "A", true⟩
        (MagenticEvent.agentDelta "A" "world")
      = (⟨none, none, false, none, some "A", true⟩, "world")
    ∧ processEvent initState (MagenticEvent.agentDelta "A" "Hello ")
      = ({ initState with lastStreamAgentId := some "A", streamLineOpen := true },
          (if initState.streamLineOpen then "\n" else "")
            ++ "\n[STREAM:" ++ "A" ++ "]: " ++ "Hello ") :=
  ⟨(agent_delta_rendering ⟨none, none, false, none, some "A", true⟩ "A" "world").1
      rfl rfl,
    (agent_delta_rendering initState "A" "Hello ").2.1 (Or.inr rfl)⟩

/-- C6: malformed choices are handled locally by the input loop: each one
only prints the re-prompt line and reads again; the collected decision and
the leftover operator inputs are exactly those of the input list with the
malformed prefix removed, so invalid input is never escalated and the loop
proceeds only on a recognised reply or an explicit exit. -/
theorem invalid_choice_reprompts (bad : List String) (inputs : List String)
    (h : ∀ c ∈ bad, strLower (strStrip c) ∉ recognisedChoices) :
    (collectReply (bad ++ inputs)).1 = (collectReply inputs).1
    ∧ (collectReply (bad ++ inputs)).2
        = repromptText bad.length ++ (collectReply inputs).2 := by
  induction bad with
  | nil => exact ⟨rfl, (String.empty_append _).symm⟩
  | cons c rest ih =>
    obtain ⟨ih1, ih2⟩ := ih (fun x hx => h x (List.mem_cons_of_mem _ hx))
    have hc := h c (List.mem_cons_self _ _)
    simp only [recognisedChoices, List.mem_cons, List.not_mem_nil, or_false] at hc
    push_neg at hc
    obtain ⟨h1, h2, h3, h4, h5, h6, h7, h8, h9, h10⟩ := hc
    constructor
    · simp only [List.cons_append, collectReply]
      rw [if_neg (by tauto), if_neg (by tauto), if_neg (by tauto),
        if_neg (by tauto), if_neg (by tauto)]
      exact ih1
    · simp only [List.cons_append, collectReply]
      rw [if_neg (by tauto), if_neg (by tauto), if_neg (by tauto),
        if_neg (by tauto), if_neg (by tauto)]
      show promptChoice ++ invalidLine ++ (collectReply (rest ++ inputs)).2 = _
      rw [ih2]
      simp only [List.length_cons, repromptText]
      simp [String.append_assoc]

/-- Witness for C6: two malformed choices before `approve` change nothing
but the printed re-prompts. -/
theorem invalid_choice_reprompts_witness :
    (collectReply ["bogus", "nah", "approve"]).1 = (collectReply ["approve"]).1
    ∧ (collectReply ["bogus", "nah", "approve"]).2
        = repromptText 2 ++ (collectReply ["approve"]).2 :=
  invalid_choice_reprompts ["bogus", "nah"] ["approve"] (by decide)

/-- C8: a request-free event sequence consumes no operator input, so a run
— outcome, stream calls, and rendered text — is a function of the event
sequence alone; two fresh loop instances, each owning its own freshly
initialised accumulation buffers (`last_stream_agent_id`,
`stream_line_open`), render character-for-character identical output on the
identical sequence whatever else differs in their environment. -/
theorem rendering_deterministic (es : List MagenticEvent)
    (inputs1 inputs2 : List String)
    (h : ∀ e ∈ es, isRequestEvent e = false) :
    runLoop initState [es] inputs1 = runLoop initState [es] inputs2
    ∧ renderOnce es inputs1 = renderOnce es inputs2 := by
  have hpr : (processSegment initState es).1.pendingRequest = none := by
    rw [processSegment_pendingRequest es initState h]
    rfl
  have hnil : runLoop (afterSegmentState initState es) [] inputs1
      = runLoop (afterSegmentState initState es) [] inputs2 := rfl
  have heq : runLoop initState [es] inputs1 = runLoop initState [es] inputs2 := by
    rw [runLoop_cons_noRequest initState es [] inputs1 rfl hpr,
      runLoop_cons_noRequest initState es [] inputs2 rfl hpr, hnil]
  exact ⟨heq, by simp only [renderOnce]; rw [heq]⟩

/-- Witness for C8: a one-delta sequence renders identically for two
instances with different operator environments. -/
theorem rendering_deterministic_witness :
    runLoop initState [[MagenticEvent.agentDelta "A" "x"]] ["ops"]
        = runLoop initState [[MagenticEvent.agentDelta "A" "x"]] []
      ∧ renderOnce [MagenticEvent.agentDelta "A" "x"] ["ops"]
        = renderOnce [MagenticEvent.agentDelta "A" "x"] [] :=
  rendering_deterministic [MagenticEvent.agentDelta "A" "x"] ["ops"] [] (by decide)

/-- Observing one event never touches the caught or escaping exception. -/
theorem observeSeqEvent_exn (obs : SequentialRunObs) (e : SequentialEvent) :
    (observeSeqEvent obs e).caught = obs.caught
    ∧ (observeSeqEvent obs e).raisedToCaller = obs.raisedToCaller := by
  cases e with
  | executorFailed i x => exact ⟨rfl, rfl⟩
  | workflowFailed t m i => exact ⟨rfl, rfl⟩
  | statusChange st => cases st <;> exact ⟨rfl, rfl⟩
  | other => exact ⟨rfl, rfl⟩

/-- The event fold collects exactly the structured details — error type,
message, executor id — of the `WorkflowFailedEvent`s it renders. -/
theorem observe_fold_workflowFailures :
    ∀ (events : List SequentialEvent) (obs : SequentialRunObs),
    (events.foldl observeSeqEvent obs).workflowFailures
      = obs.workflowFailures
        ++ events.filterMap (fun e =>
            match e with
            | .workflowFailed t m i => some (t, m, i)
            | _ => none)
  | [], obs => by simp
  | e :: rest, obs => by
      simp only [List.foldl_cons, List.filterMap_cons]
      rw [observe_fold_workflowFailures rest]
      cases e with
      | workflowFailed t m i => simp [observeSeqEvent, List.append_assoc]
      | executorFailed i x => simp [observeSeqEvent]
      | statusChange st => cases st <;> simp [observeSeqEvent]
      | other => simp [observeSeqEvent]

/-- The event fold never touches the caught or escaping exception. -/
theorem observe_fold_exn :
    ∀ (events : List SequentialEvent) (obs : SequentialRunObs),
    (events.foldl observeSeqEvent obs).caught = obs.caught
    ∧ (events.foldl observeSeqEvent obs).raisedToCaller = obs.raisedToCaller
  | [], _ => ⟨rfl, rfl⟩
  | e :: rest, obs => by
      simp only [List.foldl_cons]
      obtain ⟨c1, c2⟩ := observe_fold_exn rest (observeSeqEvent obs e)
      obtain ⟨d1, d2⟩ := observeSeqEvent_exn obs e
      exact ⟨c1.trans d1, c2.trans d2⟩

/-- C2 counterexample: on the sample failure scenario — executor failure,
workflow failure, FAILED status, engine exception re-raised after the
events — `run_workflow` catches the exception and returns normally, so no
error is raised or returned to its caller. -/
theorem run_workflow_swallows_exception :
    (run_workflow failingEvents (some failingExn)).raisedToCaller = none
    ∧ ¬∃ e, (run_workflow failingEvents (some failingExn)).raisedToCaller = some e := by
  refine ⟨rfl, ?_⟩
  rintro ⟨e, he⟩
  rw [show (run_workflow failingEvents (some failingExn)).raisedToCaller = none
    from rfl] at he
  cases he

/-- C2 amended: on a failure the loop records and renders the structured
error — kind, message, originating participant — of the
`WorkflowFailedEvent`, catches the exception the engine re-raises after the
events, and returns normally with no output value: the error is surfaced
locally, not propagated to the caller of `run_workflow`. -/
theorem run_workflow_failure_spec (events : List SequentialEvent)
    (raised : Option CaughtError) (errorType message : String)
    (executorId : Option String)
    (hmem : SequentialEvent.workflowFailed errorType message executorId ∈ events) :
    (errorType, message, executorId) ∈ (run_workflow events raised).workflowFailures
    ∧ (run_workflow events raised).caught = raised
    ∧ (run_workflow events raised).raisedToCaller = none := by
  have hwf : (run_workflow events raised).workflowFailures
      = (events.foldl observeSeqEvent ⟨[], [], false, none, none, ""⟩).workflowFailures := by
    cases raised <;> rfl
  have hcaught : (run_workflow events raised).caught = raised := by
    cases raised with
    | none =>
        show (events.foldl observeSeqEvent ⟨[], [], false, none, none, ""⟩).caught = none
        rw [(observe_fold_exn events ⟨[], [], false, none, none, ""⟩).1]
    | some e => rfl
  have hraised : (run_workflow events raised).raisedToCaller = none := by
    cases raised with
    | none =>
        show (events.foldl observeSeqEvent
            ⟨[], [], false, none, none, ""⟩).raisedToCaller = none
        rw [(observe_fold_exn events ⟨[], [], false, none, none, ""⟩).2]
    | some e => rfl
  refine ⟨?_, hcaught, hraised⟩
  rw [hwf, observe_fold_workflowFailures]
  simp only [List.nil_append]
  exact List.mem_filterMap.mpr ⟨_, hmem, rfl⟩

/-- Witness for the amended C2 at the sample failure scenario. -/
theorem run_workflow_failure_spec_witness :
    ("RuntimeError", "Product not found in catalog", some "CatalogAgent")
        ∈ (run_workflow failingEvents (some failingExn)).workflowFailures
    ∧ (run_workflow failingEvents (some failingExn)).caught = some failingExn
    ∧ (run_workflow failingEvents (some failingExn)).raisedToCaller = none :=
  run_workflow_failure_spec failingEvents (some failingExn)
    "RuntimeError" "Product not found in catalog" (some "CatalogAgent") (by decide)
